import Mathlib

/-!
Verification of the LaTeX-to-image conversion utilities in
`workbook/4_Markdown Reporting/process/utils.py`.

Text content, file paths and command-line arguments are modelled as
`List Char`.  The filesystem is an association list of path/content pairs
plus a list of existing directories.  The two external binaries
(`pdflatex` and ImageMagick's `magick`) are parameters of type `Tool`:
a tool receives the argument vector and the current filesystem and
returns an exit code, captured stdout/stderr and the new filesystem.
-/

set_option autoImplicit false

/-- Text (file contents, paths, command arguments) as a list of characters. -/
abbrev Str := List Char

/-- Shorthand turning a Lean string literal into `Str`. -/
def str (s : String) : Str := s.data

/-- Does `n` occur as a leading segment of `h`?  Models Python `startswith`
and is the base step of substring search. -/
def startsWithList : Str → Str → Bool
  | [], _ => true
  | _ :: _, [] => false
  | a :: na, b :: nb => decide (a = b) && startsWithList na nb

/-- Substring containment, modelling Python's `needle in haystack`. -/
def containsSub (n : Str) : Str → Bool
  | [] => startsWithList n []
  | c :: t => startsWithList n (c :: t) || containsSub n t

/-- Suffix test, modelling Python `str.endswith`. -/
def endsWithList (n h : Str) : Bool := startsWithList n.reverse h.reverse

theorem startsWithList_iff (n h : Str) :
    startsWithList n h = true ↔ ∃ t, h = n ++ t := by
  induction n generalizing h with
  | nil =>
    simp [startsWithList]
  | cons a na ih =>
    cases h with
    | nil =>
      simp [startsWithList]
    | cons b nb =>
      simp only [startsWithList, Bool.and_eq_true, decide_eq_true_eq, ih]
      constructor
      · rintro ⟨rfl, t, rfl⟩
        exact ⟨t, rfl⟩
      · rintro ⟨t, ht⟩
        rcases List.cons_eq_cons.mp ht with ⟨rfl, rfl⟩
        exact ⟨rfl, t, rfl⟩

theorem containsSub_iff (n h : Str) :
    containsSub n h = true ↔ ∃ p s, h = p ++ n ++ s := by
  induction h with
  | nil =>
    simp only [containsSub, startsWithList_iff]
    constructor
    · rintro ⟨t, ht⟩
      exact ⟨[], t, ht⟩
    · rintro ⟨p, s, hps⟩
      have hp : p = [] := by
        cases p with
        | nil => rfl
        | cons x xs => simp at hps
      subst hp
      exact ⟨s, by simpa using hps⟩
  | cons c t ih =>
    simp only [containsSub, Bool.or_eq_true, startsWithList_iff, ih]
    constructor
    · rintro (⟨s, hs⟩ | ⟨p, s, hps⟩)
      · exact ⟨[], s, by simpa using hs⟩
      · exact ⟨c :: p, s, by simp [hps]⟩
    · rintro ⟨p, s, hps⟩
      cases p with
      | nil =>
        exact Or.inl ⟨s, by simpa using hps⟩
      | cons x xs =>
        rcases List.cons_eq_cons.mp hps with ⟨rfl, hrest⟩
        exact Or.inr ⟨xs, s, hrest⟩

theorem containsSub_parts (n a x y : Str) (h : containsSub n a = true) :
    containsSub n (x ++ a ++ y) = true := by
  rcases (containsSub_iff n a).mp h with ⟨p, s, rfl⟩
  refine (containsSub_iff n _).mpr ⟨x ++ p, s ++ y, ?_⟩
  simp [List.append_assoc]

/-- Split a text into its lines at newline characters.  `splitOnNl c` is the
list of maximal newline-free segments of `c`; like Python's `splitlines`
bookkeeping in `re.MULTILINE`, a trailing newline yields a final empty line
and the empty text has one (empty) line. -/
def splitOnNl : Str → List Str
  | [] => [[]]
  | c :: cs =>
    if c = '\n' then [] :: splitOnNl cs
    else
      match splitOnNl cs with
      | [] => [[c]]
      | l :: ls => (c :: l) :: ls

/-- Join lines back with single newline characters (inverse of `splitOnNl`
on newline-free lines). -/
def joinNl : List Str → Str
  | [] => []
  | [l] => l
  | l :: ls => l ++ '\n' :: joinNl ls

theorem splitOnNl_ne_nil (c : Str) : splitOnNl c ≠ [] := by
  induction c with
  | nil => simp [splitOnNl]
  | cons a cs ih =>
    by_cases ha : a = '\n'
    · simp [splitOnNl, ha]
    · simp only [splitOnNl, ha, if_false]
      cases hs : splitOnNl cs with
      | nil => simp
      | cons l ls => simp

theorem no_nl_of_mem_splitOnNl {c : Str} {l : Str}
    (h : l ∈ splitOnNl c) : '\n' ∉ l := by
  induction c generalizing l with
  | nil =>
    simp only [splitOnNl, List.mem_singleton] at h
    subst h; simp
  | cons a cs ih =>
    by_cases ha : a = '\n'
    · simp only [splitOnNl, ha, if_true, List.mem_cons] at h
      rcases h with rfl | h
      · simp
      · exact ih h
    · simp only [splitOnNl, ha, if_false] at h
      cases hs : splitOnNl cs with
      | nil => exact absurd hs (splitOnNl_ne_nil cs)
      | cons l0 ls =>
        rw [hs] at h
        simp only [List.mem_cons] at h
        rcases h with rfl | h
        · intro hmem
          rcases List.mem_cons.mp hmem with rfl | hmem
          · exact ha rfl
          · exact ih (by rw [hs]; exact List.mem_cons_self _ _) hmem
        · exact ih (by rw [hs]; exact List.mem_cons_of_mem _ h)

theorem splitOnNl_no_nl {l : Str} (h : '\n' ∉ l) : splitOnNl l = [l] := by
  induction l with
  | nil => simp [splitOnNl]
  | cons a t ih =>
    have ha : a ≠ '\n' := fun hc => h (hc ▸ List.mem_cons_self a t)
    have ht : '\n' ∉ t := fun hc => h (List.mem_cons_of_mem a hc)
    simp only [splitOnNl, ha, if_false]
    rw [ih ht]

theorem splitOnNl_append_nl {l r : Str} (h : '\n' ∉ l) :
    splitOnNl (l ++ '\n' :: r) = l :: splitOnNl r := by
  induction l with
  | nil => simp [splitOnNl]
  | cons a t ih =>
    have ha : a ≠ '\n' := fun hc => h (hc ▸ List.mem_cons_self a t)
    have ht : '\n' ∉ t := fun hc => h (List.mem_cons_of_mem a hc)
    simp only [List.cons_append, splitOnNl, ha, if_false, List.append_eq]
    rw [ih ht]

theorem splitOnNl_joinNl {ls : List Str} (h0 : ls ≠ [])
    (h : ∀ l ∈ ls, '\n' ∉ l) : splitOnNl (joinNl ls) = ls := by
  induction ls with
  | nil => exact absurd rfl h0
  | cons l rest ih =>
    cases rest with
    | nil =>
      show splitOnNl (joinNl [l]) = [l]
      rw [show joinNl [l] = l from rfl]
      exact splitOnNl_no_nl (h l (List.mem_cons_self _ _))
    | cons l2 rest2 =>
      have hjoin : joinNl (l :: l2 :: rest2) = l ++ '\n' :: joinNl (l2 :: rest2) := rfl
      rw [hjoin, splitOnNl_append_nl (h l (List.mem_cons_self _ _))]
      rw [ih (by simp) (fun x hx => h x (List.mem_cons_of_mem _ hx))]

/-- One fuel-counted step list for `replaceAll`.  The fuel starts at the
haystack length and bounds the number of scanning steps; since every
recursive call consumes at least one haystack character, the fuel never
runs out on the initial call, so this computes Python `str.replace`
(left-to-right, non-overlapping) for a non-empty needle. -/
def replAux (needle repl : Str) : Nat → Str → Str
  | 0, _ => []
  | fuel + 1, hay =>
    match hay with
    | [] => []
    | c :: rest =>
      if startsWithList needle hay then
        repl ++ replAux needle repl fuel (List.drop (needle.length - 1) rest)
      else
        c :: replAux needle repl fuel rest

/-- Python `hay.replace(needle, repl)`: every non-overlapping occurrence of
`needle` in `hay` is replaced by `repl`, scanning left to right.  (For the
empty needle Python interleaves `repl` everywhere; the source only ever
calls `replace` with the non-empty needle `".tex"`, so that case is mapped
to the identity.) -/
def replaceAll (needle repl hay : Str) : Str :=
  match needle with
  | [] => hay
  | _ :: _ => replAux needle repl hay.length hay

/-- Split `s` as `a ++ [c] ++ b` at the last occurrence of `c` (none when
`c` does not occur).  Used to model `os.path` splitting at the last slash
or dot. -/
def splitLast (c : Char) : Str → Option (Str × Str)
  | [] => none
  | x :: xs =>
    match splitLast c xs with
    | some (a, b) => some (x :: a, b)
    | none => if x = c then some ([], xs) else none

/-- Python `os.path.basename` (POSIX): everything after the last slash. -/
def basename (p : Str) : Str :=
  match splitLast '/' p with
  | none => p
  | some (_, b) => b

/-- Python `os.path.dirname` (POSIX): everything up to the last slash, with
trailing slashes stripped unless the head consists only of slashes. -/
def dirname (p : Str) : Str :=
  match splitLast '/' p with
  | none => []
  | some (a, _) =>
    let head := a ++ ['/']
    if head.all (fun ch => decide (ch = '/')) then head
    else (head.reverse.dropWhile (fun ch => decide (ch = '/'))).reverse

/-- Python `os.path.join a b` (POSIX, two arguments): `b` if it is absolute,
otherwise `a` and `b` glued with exactly one separator. -/
def joinPath (a b : Str) : Str :=
  if decide (b.head? = some '/') then b
  else if decide (a = []) || decide (a.getLast? = some '/') then a ++ b
  else a ++ '/' :: b

/-- Stem of Python `os.path.splitext` applied to a bare file name: the part
before the last dot, except that a name whose characters before that dot
are all dots (e.g. `.bashrc`) is returned whole. -/
def splitextBase (p : Str) : Str :=
  match splitLast '.' p with
  | none => p
  | some (a, _) => if a.all (fun ch => decide (ch = '.')) then p else a

/-- Decimal rendering of a natural number, for `str(density)` etc. -/
def natToStr (n : Nat) : Str := (Nat.repr n).data

/-- The filesystem: an association list mapping each existing file path to
its content (later entries shadowed by earlier ones are never created:
`writeFS` removes the old entry), plus the list of existing directories. -/
structure FS where
  files : List (Str × Str)
  dirs : List Str
deriving DecidableEq

/-- First content stored for path `p`. -/
def lookupFiles : List (Str × Str) → Str → Option Str
  | [], _ => none
  | e :: rest, p => if e.1 = p then some e.2 else lookupFiles rest p

/-- Content of the file at `p`, if any (Python `open(p).read()`). -/
def lookupFS (fs : FS) (p : Str) : Option Str := lookupFiles fs.files p

/-- Does a regular file exist at `p`? -/
def existsFile (fs : FS) (p : Str) : Bool := (lookupFS fs p).isSome

/-- Does a directory exist at `p`? -/
def existsDir (fs : FS) (p : Str) : Bool := decide (p ∈ fs.dirs)

/-- Python `os.path.exists`: true for files and for directories. -/
def pathExists (fs : FS) (p : Str) : Bool := existsFile fs p || existsDir fs p

/-- Python `open(p, 'w'); write(v)`: create or overwrite the file at `p`. -/
def writeFS (fs : FS) (p v : Str) : FS :=
  ⟨(p, v) :: fs.files.filter (fun e => !decide (e.1 = p)), fs.dirs⟩

/-- Python `os.remove p` on a regular file.  (`os.remove` on a directory
raises; the claims that use removal carry the hypothesis that no directory
sits at the removed path.) -/
def removeFS (fs : FS) (p : Str) : FS :=
  ⟨fs.files.filter (fun e => !decide (e.1 = p)), fs.dirs⟩

/-- The cleanup idiom of the source: `if os.path.exists(p): os.remove(p)`. -/
def removeIfExists (fs : FS) (p : Str) : FS :=
  if pathExists fs p then removeFS fs p else fs

/-- Python `os.makedirs p`. -/
def makedirs (fs : FS) (p : Str) : FS := ⟨fs.files, p :: fs.dirs⟩

/-- The idiom `if not os.path.exists(p): os.makedirs(p)`. -/
def ensureDir (fs : FS) (p : Str) : FS :=
  if pathExists fs p then fs else makedirs fs p

theorem lookupFS_writeFS_self (fs : FS) (p v : Str) :
    lookupFS (writeFS fs p v) p = some v := by
  simp [lookupFS, writeFS, lookupFiles]

theorem lookupFiles_filter_self (l : List (Str × Str)) (p : Str) :
    lookupFiles (l.filter (fun e => !decide (e.1 = p))) p = none := by
  induction l with
  | nil => simp [lookupFiles]
  | cons e rest ih =>
    by_cases he : e.1 = p
    · simp [List.filter_cons, he, ih]
    · simp [List.filter_cons, he, lookupFiles, ih]

theorem lookupFiles_filter_none (l : List (Str × Str)) (f : Str × Str → Bool)
    (q : Str) (h : lookupFiles l q = none) :
    lookupFiles (l.filter f) q = none := by
  induction l with
  | nil => simp [lookupFiles]
  | cons e rest ih =>
    simp only [lookupFiles] at h
    by_cases he : e.1 = q
    · simp [he] at h
    · rw [if_neg he] at h
      cases hf : f e with
      | false => simp [List.filter_cons, hf, ih h]
      | true => simp [List.filter_cons, hf, lookupFiles, he, ih h]

theorem existsFile_removeFS_self (fs : FS) (p : Str) :
    existsFile (removeFS fs p) p = false := by
  simp [existsFile, removeFS, lookupFS, lookupFiles_filter_self]

theorem existsFile_removeFS_none (fs : FS) (p q : Str)
    (h : existsFile fs q = false) : existsFile (removeFS fs p) q = false := by
  simp only [existsFile, lookupFS, removeFS] at *
  have h' : lookupFiles fs.files q = none := by
    cases hl : lookupFiles fs.files q with
    | none => rfl
    | some v => rw [hl] at h; simp at h
  rw [lookupFiles_filter_none _ _ _ h']
  rfl

theorem dirs_removeIfExists (fs : FS) (p : Str) :
    (removeIfExists fs p).dirs = fs.dirs := by
  unfold removeIfExists
  split <;> rfl

theorem existsDir_removeIfExists (fs : FS) (p q : Str) :
    existsDir (removeIfExists fs p) q = existsDir fs q := by
  simp [existsDir, dirs_removeIfExists]

theorem existsFile_removeIfExists_self (fs : FS) (p : Str) :
    existsFile (removeIfExists fs p) p = false ∨ pathExists fs p = false := by
  unfold removeIfExists
  by_cases h : pathExists fs p = true
  · rw [if_pos h]
    exact Or.inl (existsFile_removeFS_self fs p)
  · exact Or.inr (by simpa using h)

theorem existsFile_removeIfExists_none (fs : FS) (p q : Str)
    (h : existsFile fs q = false) :
    existsFile (removeIfExists fs p) q = false := by
  unfold removeIfExists
  split
  · exact existsFile_removeFS_none fs p q h
  · exact h

theorem pathExists_removeIfExists_self (fs : FS) (p : Str)
    (hd : existsDir fs p = false) :
    pathExists (removeIfExists fs p) p = false := by
  have hdir : existsDir (removeIfExists fs p) p = false := by
    rw [existsDir_removeIfExists]; exact hd
  rcases existsFile_removeIfExists_self fs p with hf | hne
  · simp [pathExists, hf, hdir]
  · have hf : existsFile fs p = false := by
      simp only [pathExists, Bool.or_eq_false_iff] at hne
      exact hne.1
    have : removeIfExists fs p = fs := by
      unfold removeIfExists
      rw [if_neg (by simp [hne])]
    rw [this]
    simp [pathExists, hf, hd]

theorem pathExists_removeIfExists_none (fs : FS) (p q : Str)
    (h : pathExists fs q = false) :
    pathExists (removeIfExists fs p) q = false := by
  simp only [pathExists, Bool.or_eq_false_iff] at h ⊢
  exact ⟨existsFile_removeIfExists_none fs p q h.1,
    by rw [existsDir_removeIfExists]; exact h.2⟩

/-- The literal `\caption` looked for by `remove_captions_from_tex`;
its regex `^.*\\caption.*$` (MULTILINE) matches exactly the lines that
contain this text, since `.` does not cross newlines. -/
def captionTok : Str := str "\\caption"

/-- The body-begin marker `\begin{document}` checked by
`ensure_latex_document_structure`. -/
def beginMarker : Str := str "\\begin\x7bdocument\x7d"

/-- The body-end marker `\end{document}`. -/
def endMarker : Str := str "\\end\x7bdocument\x7d"

/-- The fixed preamble prepended by `ensure_latex_document_structure`
(document class, four packages, page-style, body-begin marker). -/
def preamble : Str :=
  str "\\documentclass\x7barticle\x7d\n\\usepackage\x7bdcolumn\x7d\n\\usepackage\x7bfloat\x7d\n\\usepackage\x7bbooktabs\x7d\n\\usepackage\x7bgraphicx\x7d\n\\pagestyle\x7bempty\x7d\n\\begin\x7bdocument\x7d\n"

/-- The appended ending `"\n\\end{document}\n"`. -/
def endDocument : Str := str "\n\\end\x7bdocument\x7d\n"

/-- Effect of the regex substitution on one line: a line containing
`\caption` is replaced by the empty line, any other line is kept. -/
def blankCaption (l : Str) : Str := if containsSub captionTok l then [] else l

/-- `re.sub(r'^.*\\caption.*$', '', content, flags=re.MULTILINE)`: since
`.` does not match newlines and the pattern requires the literal
`\caption`, each match is exactly one full line containing `\caption`,
replaced by the empty string with its delimiting newlines untouched. -/
def removeCaptions (c : Str) : Str := joinNl ((splitOnNl c).map blankCaption)

/-- Number of lines of a text. -/
def numLines (c : Str) : Nat := (splitOnNl c).length

/-- Number of lines of a text that contain the `\caption` directive. -/
def captionLineCount (c : Str) : Nat :=
  ((splitOnNl c).filter (fun l => containsSub captionTok l)).length

/-- Error values raised by `tex_to_image`: Python `RuntimeError` versus
`FileNotFoundError` (the latter both for a failed `open` and for the two
explicit `raise FileNotFoundError(...)` checks). -/
inductive TexError where
  | runtimeError (msg : Str)
  | fileNotFound (msg : Str)
deriving DecidableEq

/-- Python `str(e)` of either error: the message it was built with. -/
def errText : TexError → Str
  | .runtimeError m => m
  | .fileNotFound m => m

/-- Result of one external tool invocation: exit code, captured stdout and
stderr (`subprocess.PIPE`), and the filesystem as the tool left it. -/
structure ToolResult where
  code : Nat
  out : Str
  err : Str
  fs : FS
deriving DecidableEq

/-- An external tool: argument vector and filesystem in, `ToolResult` out. -/
abbrev Tool := List Str → FS → ToolResult

deriving instance DecidableEq for Except

/-- Outcome of one `tex_to_image` call: the returned path or the raised
error, the final filesystem, and everything printed along the way. -/
structure RunResult where
  ret : Except TexError Str
  fs : FS
  printed : List Str
deriving DecidableEq

/-- Message of the `FileNotFoundError` raised by `open` on a missing file. -/
def openErrMsg (p : Str) : Str :=
  str "[Errno 2] No such file or directory: " ++ Char.ofNat 39 :: (p ++ [Char.ofNat 39])

/-- The `remove_captions_from_tex` function: read the file, blank every
line containing `\caption`, write the result back. -/
def removeCaptionsFile (p : Str) (fs : FS) : Except TexError FS :=
  match lookupFS fs p with
  | none => .error (.fileNotFound (openErrMsg p))
  | some c => .ok (writeFS fs p (removeCaptions c))

/-- Message printed when the document structure is injected. -/
def addingMsg (p : Str) : Str := str "Adding document structure to " ++ p

/-- Message printed when the body-begin marker is already present. -/
def structExistsMsg (p : Str) : Str :=
  str "Document structure already exists in " ++ p

/-- The `ensure_latex_document_structure` function: read the file; if the
body-begin marker is absent, prepend the fixed preamble and append the
ending and write back; otherwise leave the file untouched.  Also returns
what was printed. -/
def ensureFile (p : Str) (fs : FS) : Except TexError (FS × List Str) :=
  match lookupFS fs p with
  | none => .error (.fileNotFound (openErrMsg p))
  | some c =>
    if containsSub beginMarker c then .ok (fs, [structExistsMsg p])
    else .ok (writeFS fs p (preamble ++ c ++ endDocument), [addingMsg p])

/-- Argument vector of the `pdflatex` invocation. -/
def pdflatexArgs (texDir texFile : Str) : List Str :=
  [str "pdflatex", str "-output-directory", texDir, texFile]

/-- Argument vector of the `magick` invocation. -/
def magickArgs (density : Nat) (pdfFile : Str) (quality : Nat)
    (outputImage : Str) : List Str :=
  [str "magick", str "-density", natToStr density, pdfFile,
   str "-background", str "white", str "-alpha", str "remove",
   str "-alpha", str "off", str "-trim",
   str "-quality", natToStr quality, outputImage]

/-- Python `repr` of one command-line argument (single-quoted; the escaping
Python would apply to quotes or backslashes inside the argument is not
modelled, as no modelled argument contains them). -/
def pyStrRepr (s : Str) : Str := Char.ofNat 39 :: (s ++ [Char.ofNat 39])

/-- Interleave a separator between texts. -/
def joinSep (sep : Str) : List Str → Str
  | [] => []
  | [s] => s
  | s :: rest => s ++ sep ++ joinSep sep rest

/-- Python `str` of a list of strings, as it appears when a
`CalledProcessError` is formatted. -/
def pyListRepr (xs : List Str) : Str :=
  '[' :: (joinSep (str ", ") (xs.map pyStrRepr) ++ [']'])

/-- Python `str(subprocess.CalledProcessError(code, cmd))` for a normal
non-zero exit status: the command list and the status — the captured
stderr is NOT part of this text.  (The negative-returncode "died with
signal" variant is not modelled; tool exit codes are naturals.) -/
def cpeMsg (cmd : List Str) (code : Nat) : Str :=
  str "Command " ++ Char.ofNat 39 :: pyListRepr cmd ++
    Char.ofNat 39 :: (str " returned non-zero exit status " ++ natToStr code ++ str ".")

/-- Message of the `RuntimeError` raised when `pdflatex` exits non-zero:
`f"Error compiling LaTeX file: {e}"` with `e` the `CalledProcessError`. -/
def compileErrMsg (texDir texFile : Str) (code : Nat) : Str :=
  str "Error compiling LaTeX file: " ++ cpeMsg (pdflatexArgs texDir texFile) code

/-- Message of the `RuntimeError` raised when `magick` exits non-zero. -/
def convertErrMsg (density : Nat) (pdfFile : Str) (quality : Nat)
    (outputImage : Str) (code : Nat) : Str :=
  str "Error converting PDF to image: " ++
    cpeMsg (magickArgs density pdfFile quality outputImage) code

/-- Message of the `FileNotFoundError` for a missing intermediate PDF. -/
def pdfNotCreatedMsg (p : Str) : Str :=
  str "PDF file " ++ p ++ str " was not created."

/-- Message of the `FileNotFoundError` for a missing output image. -/
def imgNotCreatedMsg (p : Str) : Str :=
  str "Image file " ++ p ++ str " was not created."

/-- The expected intermediate PDF path, source line 41:
`os.path.join(tex_dir, os.path.basename(tex_file).replace('.tex', '.pdf'))`.
Note `str.replace` substitutes every occurrence of `".tex"`. -/
def pdfTargetPath (texFile : Str) : Str :=
  joinPath (dirname texFile) (replaceAll (str ".tex") (str ".pdf") (basename texFile))

/-- A conventionally named side file, source lines 65-69:
`os.path.join(tex_dir, base_name + ext)` with
`base_name = os.path.splitext(os.path.basename(tex_file))[0]`. -/
def auxSidePath (texFile ext : Str) : Str :=
  joinPath (dirname texFile) (splitextBase (basename texFile) ++ ext)

/-- Steps 2-4 of `tex_to_image` (after the two preprocessing rewrites):
compile, check the PDF, rasterize, check the image, clean up. -/
def texToImageCore (pdfl magick : Tool) (texFile outputImage : Str)
    (density quality : Nat) (fs2 : FS) (msgs : List Str) : RunResult :=
  let texDir := dirname texFile
  let r1 := pdfl (pdflatexArgs texDir texFile) fs2
  if r1.code = 0 then
    let printed1 := msgs ++ [r1.out]
    let pdfFile := pdfTargetPath texFile
    if pathExists r1.fs pdfFile then
      let r2 := magick (magickArgs density pdfFile quality outputImage) r1.fs
      if r2.code = 0 then
        let printed2 := printed1 ++ [r2.out]
        if pathExists r2.fs outputImage then
          let fs3 := removeIfExists (removeIfExists (removeIfExists r2.fs
              (auxSidePath texFile (str ".pdf"))) (auxSidePath texFile (str ".log")))
              (auxSidePath texFile (str ".aux"))
          ⟨.ok outputImage, fs3, printed2⟩
        else ⟨.error (.fileNotFound (imgNotCreatedMsg outputImage)), r2.fs, printed2⟩
      else
        ⟨.error (.runtimeError (convertErrMsg density pdfFile quality outputImage r2.code)),
         r2.fs, printed1 ++ [r2.err]⟩
    else ⟨.error (.fileNotFound (pdfNotCreatedMsg pdfFile)), r1.fs, printed1⟩
  else
    ⟨.error (.runtimeError (compileErrMsg texDir texFile r1.code)), r1.fs, msgs ++ [r1.err]⟩

/-- The `tex_to_image` function.  A raised exception is an `.error` return;
the filesystem and printed output are those at the moment of the raise. -/
def texToImage (pdfl magick : Tool) (texFile outputImage : Str)
    (density quality : Nat) (fs0 : FS) : RunResult :=
  match removeCaptionsFile texFile fs0 with
  | .error e => ⟨.error e, fs0, []⟩
  | .ok fs1 =>
    match ensureFile texFile fs1 with
    | .error e => ⟨.error e, fs1, []⟩
    | .ok (fs2, msgs) =>
      texToImageCore pdfl magick texFile outputImage density quality fs2 msgs

/-- The two preprocessing rewrites of `tex_to_image` in isolation. -/
def preprocess (p : Str) (fs : FS) : Except TexError (FS × List Str) :=
  match removeCaptionsFile p fs with
  | .error e => .error e
  | .ok fs1 => ensureFile p fs1

theorem texToImage_preprocess (pdfl magick : Tool) (texFile outputImage : Str)
    (density quality : Nat) (fs0 fs2 : FS) (msgs : List Str)
    (hp : preprocess texFile fs0 = .ok (fs2, msgs)) :
    texToImage pdfl magick texFile outputImage density quality fs0 =
      texToImageCore pdfl magick texFile outputImage density quality fs2 msgs := by
  unfold preprocess at hp
  unfold texToImage
  cases hrc : removeCaptionsFile texFile fs0 with
  | error e =>
    simp only [hrc] at hp
    cases hp
  | ok fs1 =>
    simp only [hrc] at hp
    simp only [hrc, hp]

/-- Batch log line for a successful conversion. -/
def convertedMsg (inputFile imagePath : Str) : Str :=
  str "Converted: " ++ inputFile ++ str " to " ++ imagePath

/-- Batch log line for a caught per-file error:
`f"Error processing {file_name}: {e}"`. -/
def errorProcessingMsg (name : Str) (e : TexError) : Str :=
  str "Error processing " ++ name ++ str ": " ++ errText e

/-- Output image path for one batch item, source lines 133-134:
the output folder joined with `file_name.replace('.tex', '.png')`. -/
def outputImagePath (outF name : Str) : Str :=
  joinPath outF (replaceAll (str ".tex") (str ".png") name)

/-- The loop body of `convert_all_tex_to_images` over the directory
listing: skip names not ending in `.tex`; otherwise convert, catching any
error and logging it with the file name, and continue. -/
def convGo (pdfl magick : Tool) (inF outF : Str) (density quality : Nat) :
    List Str → FS → List Str → FS × List Str
  | [], fs, printed => (fs, printed)
  | name :: rest, fs, printed =>
    if endsWithList (str ".tex") name then
      let r := texToImage pdfl magick (joinPath inF name)
          (outputImagePath outF name) density quality fs
      match r.ret with
      | .ok img =>
        convGo pdfl magick inF outF density quality rest r.fs
          (printed ++ r.printed ++ [convertedMsg (joinPath inF name) img])
      | .error e =>
        convGo pdfl magick inF outF density quality rest r.fs
          (printed ++ r.printed ++ [errorProcessingMsg name e])
    else convGo pdfl magick inF outF density quality rest fs printed

/-- The `convert_all_tex_to_images` function.  The directory listing is an
input (the order of `os.listdir` is environment-determined).  The return
type carries no error: every per-file failure is caught inside the loop. -/
def convertAllTexToImages (pdfl magick : Tool) (inF outF : Str)
    (density quality : Nat) (listing : List Str) (fs : FS) : FS × List Str :=
  convGo pdfl magick inF outF density quality listing (ensureDir fs outF) []

theorem splitOnNl_removeCaptions (c : Str) :
    splitOnNl (removeCaptions c) = (splitOnNl c).map blankCaption := by
  unfold removeCaptions
  apply splitOnNl_joinNl
  · intro h
    rw [List.map_eq_nil_iff] at h
    exact splitOnNl_ne_nil c h
  · intro l hl
    rcases List.mem_map.mp hl with ⟨l0, hl0, rfl⟩
    unfold blankCaption
    split
    · simp
    · exact no_nl_of_mem_splitOnNl hl0

theorem blankCaption_idem (l : Str) :
    blankCaption (blankCaption l) = blankCaption l := by
  cases hc : containsSub captionTok l with
  | true =>
    have h0 : containsSub captionTok ([] : Str) = false := rfl
    simp [blankCaption, hc, h0]
  | false => simp [blankCaption, hc]

theorem map_blankCaption_idem (ls : List Str) :
    (ls.map blankCaption).map blankCaption = ls.map blankCaption := by
  induction ls with
  | nil => rfl
  | cons a t ih => simp only [List.map_cons, blankCaption_idem, ih]

theorem removeCaptions_idem (c : Str) :
    removeCaptions (removeCaptions c) = removeCaptions c := by
  show joinNl ((splitOnNl (removeCaptions c)).map blankCaption) = removeCaptions c
  rw [splitOnNl_removeCaptions, map_blankCaption_idem]
  rfl

theorem writeFS_writeFS_same (fs : FS) (p v : Str) :
    writeFS (writeFS fs p v) p v = writeFS fs p v := by
  unfold writeFS
  simp only [FS.mk.injEq, and_true, List.cons.injEq, true_and]
  rw [List.filter_cons]
  simp only [decide_True, Bool.not_true, Bool.false_eq_true, if_false]
  rw [List.filter_filter]
  simp

/-- C1.  For a file whose content lacks the body-begin marker,
`ensure_latex_document_structure` writes back exactly the fixed preamble,
the original content and the end marker; the new content contains both
markers and the original content as a contiguous substring. -/
theorem ensureFile_absent_marker_inserts (fs : FS) (p c : Str)
    (h1 : lookupFS fs p = some c) (h2 : containsSub beginMarker c = false) :
    ensureFile p fs
        = .ok (writeFS fs p (preamble ++ c ++ endDocument), [addingMsg p])
    ∧ containsSub beginMarker (preamble ++ c ++ endDocument) = true
    ∧ containsSub endMarker (preamble ++ c ++ endDocument) = true
    ∧ containsSub c (preamble ++ c ++ endDocument) = true := by
  refine ⟨?_, ?_, ?_, ?_⟩
  · unfold ensureFile
    rw [h1]
    simp [h2]
  · have hb : containsSub beginMarker preamble = true := by decide
    have h := containsSub_parts beginMarker preamble [] (c ++ endDocument) hb
    simpa [List.append_assoc] using h
  · have he : containsSub endMarker endDocument = true := by decide
    have h := containsSub_parts endMarker endDocument (preamble ++ c) [] he
    simpa [List.append_assoc] using h
  · exact (containsSub_iff c _).mpr ⟨preamble, endDocument, rfl⟩

theorem ensureFile_absent_marker_inserts_witness :
    ensureFile (str "t.tex") ⟨[(str "t.tex", str "hi")], []⟩
        = .ok (writeFS ⟨[(str "t.tex", str "hi")], []⟩ (str "t.tex")
            (preamble ++ str "hi" ++ endDocument), [addingMsg (str "t.tex")])
    ∧ containsSub beginMarker (preamble ++ str "hi" ++ endDocument) = true
    ∧ containsSub endMarker (preamble ++ str "hi" ++ endDocument) = true
    ∧ containsSub (str "hi") (preamble ++ str "hi" ++ endDocument) = true :=
  ensureFile_absent_marker_inserts _ _ _ (by decide) (by decide)

/-- C2.  For a file whose content already contains the body-begin marker,
`ensure_latex_document_structure` performs no write at all: the filesystem
is returned unchanged (hence running it a second time changes nothing
either, as the second conjunct records). -/
theorem ensureFile_present_marker_noop (fs : FS) (p c : Str)
    (h1 : lookupFS fs p = some c) (h2 : containsSub beginMarker c = true) :
    ensureFile p fs = .ok (fs, [structExistsMsg p])
    ∧ ∀ fs' msgs', ensureFile p fs = .ok (fs', msgs') →
        ensureFile p fs' = ensureFile p fs := by
  have h0 : ensureFile p fs = .ok (fs, [structExistsMsg p]) := by
    unfold ensureFile
    rw [h1]
    simp [h2]
  refine ⟨h0, ?_⟩
  intro fs' msgs' h
  rw [h0] at h
  have h3 : (fs, [structExistsMsg p]) = (fs', msgs') := Except.ok.inj h
  have h4 : fs' = fs := ((Prod.ext_iff.mp h3).1).symm
  rw [h4]

theorem ensureFile_present_marker_noop_witness :
    ensureFile (str "t.tex") ⟨[(str "t.tex", beginMarker)], []⟩
        = .ok (⟨[(str "t.tex", beginMarker)], []⟩, [structExistsMsg (str "t.tex")])
    ∧ ∀ fs' msgs',
        ensureFile (str "t.tex") ⟨[(str "t.tex", beginMarker)], []⟩ = .ok (fs', msgs') →
        ensureFile (str "t.tex") fs'
          = ensureFile (str "t.tex") ⟨[(str "t.tex", beginMarker)], []⟩ :=
  ensureFile_present_marker_noop ⟨[(str "t.tex", beginMarker)], []⟩ (str "t.tex")
    beginMarker (by decide) (by decide)

/-- C3, counterexample.  The substitution `re.sub(r'^.*\\caption.*$', '',
...)` blanks matched lines but keeps their newlines, so on a two-line file
with one caption line the line count stays 2 instead of dropping to 1. -/
theorem removeCaptions_line_count_counterexample :
    captionLineCount (str "\\caption x\nfoo") = 1
    ∧ numLines (str "\\caption x\nfoo") = 2
    ∧ removeCaptionsFile (str "t.tex") ⟨[(str "t.tex", str "\\caption x\nfoo")], []⟩
        = .ok ⟨[(str "t.tex", str "\nfoo")], []⟩
    ∧ numLines (str "\nfoo") = 2
    ∧ numLines (str "\nfoo")
        ≠ numLines (str "\\caption x\nfoo") - captionLineCount (str "\\caption x\nfoo") := by
  refine ⟨by decide, by decide, by decide, by decide, by decide⟩

/-- C3, amended.  `remove_captions_from_tex` rewrites the file with every
`\caption` line blanked; each matched line is replaced by an empty line,
so the line count of the file is unchanged (it never decreases). -/
theorem removeCaptionsFile_preserves_line_count (fs : FS) (p c : Str)
    (h : lookupFS fs p = some c) :
    removeCaptionsFile p fs = .ok (writeFS fs p (removeCaptions c))
    ∧ numLines (removeCaptions c) = numLines c := by
  constructor
  · unfold removeCaptionsFile
    rw [h]
  · unfold numLines
    rw [splitOnNl_removeCaptions, List.length_map]

theorem removeCaptionsFile_preserves_line_count_witness :
    removeCaptionsFile (str "c3w.tex") ⟨[(str "c3w.tex", str "\\caption y\nbar")], []⟩
        = .ok (writeFS ⟨[(str "c3w.tex", str "\\caption y\nbar")], []⟩ (str "c3w.tex")
            (removeCaptions (str "\\caption y\nbar")))
    ∧ numLines (removeCaptions (str "\\caption y\nbar"))
        = numLines (str "\\caption y\nbar") :=
  removeCaptionsFile_preserves_line_count _ _ _ (by decide)

/-- C4.  After `remove_captions_from_tex` runs, no line of the rewritten
content contains the `\caption` directive. -/
theorem removeCaptionsFile_no_caption_lines (fs : FS) (p c : Str)
    (h : lookupFS fs p = some c) :
    removeCaptionsFile p fs = .ok (writeFS fs p (removeCaptions c))
    ∧ (splitOnNl (removeCaptions c)).all (fun l => !containsSub captionTok l) = true := by
  constructor
  · unfold removeCaptionsFile
    rw [h]
  · rw [splitOnNl_removeCaptions, List.all_eq_true]
    intro l hl
    rcases List.mem_map.mp hl with ⟨l0, _, rfl⟩
    unfold blankCaption
    cases hc : containsSub captionTok l0 with
    | true =>
      simp only [hc, if_true]
      decide
    | false => simp [hc]

theorem removeCaptionsFile_no_caption_lines_witness :
    removeCaptionsFile (str "c4w.tex") ⟨[(str "c4w.tex", str "a\n\\caption z\nb")], []⟩
        = .ok (writeFS ⟨[(str "c4w.tex", str "a\n\\caption z\nb")], []⟩ (str "c4w.tex")
            (removeCaptions (str "a\n\\caption z\nb")))
    ∧ (splitOnNl (removeCaptions (str "a\n\\caption z\nb"))).all
        (fun l => !containsSub captionTok l) = true :=
  removeCaptionsFile_no_caption_lines _ _ _ (by decide)

/-- C10.  `remove_captions_from_tex` is idempotent: the blanked lines left
by a first run contain no `\caption`, so a second run rewrites the file
with identical content and the filesystem is unchanged. -/
theorem removeCaptionsFile_idempotent (fs : FS) (p c : Str)
    (h : lookupFS fs p = some c) :
    removeCaptionsFile p fs = .ok (writeFS fs p (removeCaptions c))
    ∧ removeCaptions (removeCaptions c) = removeCaptions c
    ∧ removeCaptionsFile p (writeFS fs p (removeCaptions c))
        = .ok (writeFS fs p (removeCaptions c)) := by
  refine ⟨?_, removeCaptions_idem c, ?_⟩
  · unfold removeCaptionsFile
    rw [h]
  · unfold removeCaptionsFile
    simp only [lookupFS_writeFS_self]
    rw [removeCaptions_idem, writeFS_writeFS_same]

theorem removeCaptionsFile_idempotent_witness :
    removeCaptionsFile (str "c10w.tex") ⟨[(str "c10w.tex", str "\\caption q\nqux")], []⟩
        = .ok (writeFS ⟨[(str "c10w.tex", str "\\caption q\nqux")], []⟩ (str "c10w.tex")
            (removeCaptions (str "\\caption q\nqux")))
    ∧ removeCaptions (removeCaptions (str "\\caption q\nqux"))
        = removeCaptions (str "\\caption q\nqux")
    ∧ removeCaptionsFile (str "c10w.tex")
        (writeFS ⟨[(str "c10w.tex", str "\\caption q\nqux")], []⟩ (str "c10w.tex")
          (removeCaptions (str "\\caption q\nqux")))
        = .ok (writeFS ⟨[(str "c10w.tex", str "\\caption q\nqux")], []⟩ (str "c10w.tex")
            (removeCaptions (str "\\caption q\nqux"))) :=
  removeCaptionsFile_idempotent _ _ _ (by decide)

/-- A `pdflatex` stand-in that succeeds and creates exactly the PDF the
source later checks for (source line 41). -/
def okPdfl : Tool := fun args fs =>
  match args.get? 3 with
  | some texF => ⟨0, str "ok", [], writeFS fs (pdfTargetPath texF) (str "PDF")⟩
  | none => ⟨1, [], [], fs⟩

/-- A `magick` stand-in that succeeds and creates the requested output
image (the last argument of the invocation). -/
def okMagick : Tool := fun args fs =>
  match args.getLast? with
  | some outP => ⟨0, str "ok", [], writeFS fs outP (str "IMG")⟩
  | none => ⟨1, [], [], fs⟩

/-- A tool that reports success but creates nothing. -/
def noopOkTool : Tool := fun _ fs => ⟨0, [], [], fs⟩

/-- A `pdflatex` stand-in that fails with a recognizable diagnostic on its
captured stderr. -/
def cexPdfl : Tool := fun _ fs => ⟨1, [], str "diagnosticXYZ", fs⟩

/-- A `pdflatex` stand-in that fails on `in/bad.tex` and behaves like
`okPdfl` on every other input. -/
def demoPdfl : Tool := fun args fs =>
  if args.get? 3 = some (str "in/bad.tex") then ⟨1, [], str "bad diag", fs⟩
  else
    match args.get? 3 with
    | some texF => ⟨0, str "ok", [], writeFS fs (pdfTargetPath texF) (str "PDF")⟩
    | none => ⟨1, [], [], fs⟩

/-- One-file filesystem whose content already carries the marker. -/
def w5FS : FS := ⟨[(str "in/t.tex", beginMarker)], []⟩

/-- One-file filesystem for the compile-failure scenario. -/
def cexFS : FS := ⟨[(str "t.tex", beginMarker)], []⟩

theorem texToImageCore_compile_fail (pdfl magick : Tool)
    (texFile outputImage : Str) (density quality : Nat) (fs2 : FS)
    (msgs : List Str) (r1 : ToolResult)
    (hr1 : pdfl (pdflatexArgs (dirname texFile) texFile) fs2 = r1)
    (hc1 : r1.code ≠ 0) :
    texToImageCore pdfl magick texFile outputImage density quality fs2 msgs
      = ⟨.error (.runtimeError (compileErrMsg (dirname texFile) texFile r1.code)),
         r1.fs, msgs ++ [r1.err]⟩ := by
  simp only [texToImageCore]
  rw [hr1, if_neg hc1]

theorem texToImageCore_pdf_missing (pdfl magick : Tool)
    (texFile outputImage : Str) (density quality : Nat) (fs2 : FS)
    (msgs : List Str) (r1 : ToolResult)
    (hr1 : pdfl (pdflatexArgs (dirname texFile) texFile) fs2 = r1)
    (hc1 : r1.code = 0)
    (hpdf : pathExists r1.fs (pdfTargetPath texFile) = false) :
    texToImageCore pdfl magick texFile outputImage density quality fs2 msgs
      = ⟨.error (.fileNotFound (pdfNotCreatedMsg (pdfTargetPath texFile))),
         r1.fs, msgs ++ [r1.out]⟩ := by
  simp only [texToImageCore]
  rw [hr1, if_pos hc1, hpdf]
  simp

theorem texToImageCore_img_missing (pdfl magick : Tool)
    (texFile outputImage : Str) (density quality : Nat) (fs2 : FS)
    (msgs : List Str) (r1 r2 : ToolResult)
    (hr1 : pdfl (pdflatexArgs (dirname texFile) texFile) fs2 = r1)
    (hc1 : r1.code = 0)
    (hpdf : pathExists r1.fs (pdfTargetPath texFile) = true)
    (hr2 : magick (magickArgs density (pdfTargetPath texFile) quality outputImage) r1.fs = r2)
    (hc2 : r2.code = 0)
    (himg : pathExists r2.fs outputImage = false) :
    texToImageCore pdfl magick texFile outputImage density quality fs2 msgs
      = ⟨.error (.fileNotFound (imgNotCreatedMsg outputImage)),
         r2.fs, (msgs ++ [r1.out]) ++ [r2.out]⟩ := by
  simp only [texToImageCore]
  rw [hr1, if_pos hc1, hpdf]
  simp only [if_true]
  rw [hr2, if_pos hc2, himg]
  simp

theorem texToImageCore_success_eq (pdfl magick : Tool)
    (texFile outputImage : Str) (density quality : Nat) (fs2 : FS)
    (msgs : List Str) (r1 r2 : ToolResult)
    (hr1 : pdfl (pdflatexArgs (dirname texFile) texFile) fs2 = r1)
    (hc1 : r1.code = 0)
    (hpdf : pathExists r1.fs (pdfTargetPath texFile) = true)
    (hr2 : magick (magickArgs density (pdfTargetPath texFile) quality outputImage) r1.fs = r2)
    (hc2 : r2.code = 0)
    (himg : pathExists r2.fs outputImage = true) :
    texToImageCore pdfl magick texFile outputImage density quality fs2 msgs
      = ⟨.ok outputImage,
         removeIfExists (removeIfExists (removeIfExists r2.fs
           (auxSidePath texFile (str ".pdf"))) (auxSidePath texFile (str ".log")))
           (auxSidePath texFile (str ".aux")),
         (msgs ++ [r1.out]) ++ [r2.out]⟩ := by
  simp only [texToImageCore]
  rw [hr1, if_pos hc1, hpdf]
  simp only [if_true]
  rw [hr2, if_pos hc2, himg]
  simp

theorem cleanup_removes (fs : FS) (a b c : Str)
    (hda : existsDir fs a = false) (hdb : existsDir fs b = false)
    (hdc : existsDir fs c = false) :
    pathExists (removeIfExists (removeIfExists (removeIfExists fs a) b) c) a = false
    ∧ pathExists (removeIfExists (removeIfExists (removeIfExists fs a) b) c) b = false
    ∧ pathExists (removeIfExists (removeIfExists (removeIfExists fs a) b) c) c = false := by
  have ha1 : pathExists (removeIfExists fs a) a = false :=
    pathExists_removeIfExists_self fs a hda
  have ha2 := pathExists_removeIfExists_none (removeIfExists fs a) b a ha1
  have ha3 := pathExists_removeIfExists_none _ c a ha2
  have hb0 : existsDir (removeIfExists fs a) b = false := by
    rw [existsDir_removeIfExists]; exact hdb
  have hb1 : pathExists (removeIfExists (removeIfExists fs a) b) b = false :=
    pathExists_removeIfExists_self _ b hb0
  have hb2 := pathExists_removeIfExists_none _ c b hb1
  have hc0 : existsDir (removeIfExists (removeIfExists fs a) b) c = false := by
    rw [existsDir_removeIfExists, existsDir_removeIfExists]; exact hdc
  have hc1 := pathExists_removeIfExists_self _ c hc0
  exact ⟨ha3, hb2, hc1⟩

/-- C5.  On a fully successful run (compiler and rasterizer both exit zero
and both expected artifacts exist), `tex_to_image` returns exactly the
caller-supplied output image path, and afterwards the conventionally named
`<base>.pdf`, `<base>.log` and `<base>.aux` side files for the source's
base name do not exist in the source's directory — the cleanup loop
removes each one that exists and silently skips each one that is already
absent (its `if os.path.exists` guard), so no error arises either way.
The three directory-freeness hypotheses record that no directory sits at a
side-file path (Python's `os.remove` would raise on a directory). -/
theorem texToImage_success (pdfl magick : Tool) (texFile outputImage : Str)
    (density quality : Nat) (fs0 fs2 : FS) (msgs : List Str) (r1 r2 : ToolResult)
    (hp : preprocess texFile fs0 = .ok (fs2, msgs))
    (hr1 : pdfl (pdflatexArgs (dirname texFile) texFile) fs2 = r1)
    (hc1 : r1.code = 0)
    (hpdf : pathExists r1.fs (pdfTargetPath texFile) = true)
    (hr2 : magick (magickArgs density (pdfTargetPath texFile) quality outputImage) r1.fs = r2)
    (hc2 : r2.code = 0)
    (himg : pathExists r2.fs outputImage = true)
    (hd1 : existsDir r2.fs (auxSidePath texFile (str ".pdf")) = false)
    (hd2 : existsDir r2.fs (auxSidePath texFile (str ".log")) = false)
    (hd3 : existsDir r2.fs (auxSidePath texFile (str ".aux")) = false) :
    (texToImage pdfl magick texFile outputImage density quality fs0).ret
        = .ok outputImage
    ∧ pathExists (texToImage pdfl magick texFile outputImage density quality fs0).fs
        (auxSidePath texFile (str ".pdf")) = false
    ∧ pathExists (texToImage pdfl magick texFile outputImage density quality fs0).fs
        (auxSidePath texFile (str ".log")) = false
    ∧ pathExists (texToImage pdfl magick texFile outputImage density quality fs0).fs
        (auxSidePath texFile (str ".aux")) = false := by
  have hfull := texToImage_preprocess pdfl magick texFile outputImage density quality
    fs0 fs2 msgs hp
  rw [texToImageCore_success_eq pdfl magick texFile outputImage density quality
    fs2 msgs r1 r2 hr1 hc1 hpdf hr2 hc2 himg] at hfull
  rcases cleanup_removes r2.fs (auxSidePath texFile (str ".pdf"))
    (auxSidePath texFile (str ".log")) (auxSidePath texFile (str ".aux"))
    hd1 hd2 hd3 with ⟨hca, hcb, hcc⟩
  rw [hfull]
  exact ⟨rfl, hca, hcb, hcc⟩

theorem texToImage_success_witness :
    (texToImage okPdfl okMagick (str "in/t.tex") (str "out/t.png") 300 90 w5FS).ret
        = .ok (str "out/t.png")
    ∧ pathExists (texToImage okPdfl okMagick (str "in/t.tex") (str "out/t.png") 300 90 w5FS).fs
        (auxSidePath (str "in/t.tex") (str ".pdf")) = false
    ∧ pathExists (texToImage okPdfl okMagick (str "in/t.tex") (str "out/t.png") 300 90 w5FS).fs
        (auxSidePath (str "in/t.tex") (str ".log")) = false
    ∧ pathExists (texToImage okPdfl okMagick (str "in/t.tex") (str "out/t.png") 300 90 w5FS).fs
        (auxSidePath (str "in/t.tex") (str ".aux")) = false :=
  texToImage_success okPdfl okMagick (str "in/t.tex") (str "out/t.png") 300 90
    w5FS w5FS [structExistsMsg (str "in/t.tex")]
    ⟨0, str "ok", [], ⟨[(str "in/t.pdf", str "PDF"), (str "in/t.tex", beginMarker)], []⟩⟩
    ⟨0, str "ok", [], ⟨[(str "out/t.png", str "IMG"), (str "in/t.pdf", str "PDF"),
      (str "in/t.tex", beginMarker)], []⟩⟩
    (by decide) (by decide) (by decide) (by decide) (by decide) (by decide)
    (by decide) (by decide) (by decide) (by decide)

/-- C6, amended.  When the compiler exits non-zero, `tex_to_image` prints
the captured stderr diagnostics and raises a `RuntimeError` whose message
is `"Error compiling LaTeX file: "` followed by the formatted
`CalledProcessError` (command list and exit status) — the captured
diagnostic output is printed, not part of the message.  The failed
invocation is not retried (the outcome is determined by the single
recorded invocation, last conjunct), the rasterizer is never invoked
(second conjunct), and the function creates no output image: the
filesystem is exactly as the failed compiler invocation left it. -/
theorem texToImage_compile_error (pdfl magick : Tool) (texFile outputImage : Str)
    (density quality : Nat) (fs0 fs2 : FS) (msgs : List Str) (r1 : ToolResult)
    (hp : preprocess texFile fs0 = .ok (fs2, msgs))
    (hr1 : pdfl (pdflatexArgs (dirname texFile) texFile) fs2 = r1)
    (hc1 : r1.code ≠ 0) :
    texToImage pdfl magick texFile outputImage density quality fs0
      = ⟨.error (.runtimeError (compileErrMsg (dirname texFile) texFile r1.code)),
         r1.fs, msgs ++ [r1.err]⟩
    ∧ (∀ magick' : Tool,
        texToImage pdfl magick' texFile outputImage density quality fs0
          = texToImage pdfl magick texFile outputImage density quality fs0)
    ∧ (∀ pdfl' : Tool, pdfl' (pdflatexArgs (dirname texFile) texFile) fs2 = r1 →
        texToImage pdfl' magick texFile outputImage density quality fs0
          = texToImage pdfl magick texFile outputImage density quality fs0) := by
  have hmain : ∀ mk : Tool, texToImage pdfl mk texFile outputImage density quality fs0
      = ⟨.error (.runtimeError (compileErrMsg (dirname texFile) texFile r1.code)),
         r1.fs, msgs ++ [r1.err]⟩ := by
    intro mk
    rw [texToImage_preprocess pdfl mk texFile outputImage density quality fs0 fs2 msgs hp]
    exact texToImageCore_compile_fail pdfl mk texFile outputImage density quality
      fs2 msgs r1 hr1 hc1
  refine ⟨hmain magick, fun magick' => by rw [hmain magick', hmain magick], ?_⟩
  intro pdfl' hr1'
  rw [texToImage_preprocess pdfl' magick texFile outputImage density quality fs0 fs2 msgs hp,
    texToImage_preprocess pdfl magick texFile outputImage density quality fs0 fs2 msgs hp,
    texToImageCore_compile_fail pdfl' magick texFile outputImage density quality
      fs2 msgs r1 hr1' hc1,
    texToImageCore_compile_fail pdfl magick texFile outputImage density quality
      fs2 msgs r1 hr1 hc1]

theorem texToImage_compile_error_witness :
    texToImage cexPdfl okMagick (str "t.tex") (str "o.png") 300 90 cexFS
      = ⟨.error (.runtimeError (compileErrMsg (dirname (str "t.tex")) (str "t.tex") 1)),
         cexFS, [structExistsMsg (str "t.tex")] ++ [str "diagnosticXYZ"]⟩
    ∧ (∀ magick' : Tool,
        texToImage cexPdfl magick' (str "t.tex") (str "o.png") 300 90 cexFS
          = texToImage cexPdfl okMagick (str "t.tex") (str "o.png") 300 90 cexFS)
    ∧ (∀ pdfl' : Tool,
        pdfl' (pdflatexArgs (dirname (str "t.tex")) (str "t.tex")) cexFS
          = ⟨1, [], str "diagnosticXYZ", cexFS⟩ →
        texToImage pdfl' okMagick (str "t.tex") (str "o.png") 300 90 cexFS
          = texToImage cexPdfl okMagick (str "t.tex") (str "o.png") 300 90 cexFS) :=
  texToImage_compile_error cexPdfl okMagick (str "t.tex") (str "o.png") 300 90
    cexFS cexFS [structExistsMsg (str "t.tex")] ⟨1, [], str "diagnosticXYZ", cexFS⟩
    (by decide) (by decide) (by decide)

/-- C6, counterexample.  At a concrete failing run the compiler's captured
diagnostic output is `diagnosticXYZ`: it is printed (last line of the
printed log) but the raised `RuntimeError`'s message — the formatted
command and exit status — does not contain it, refuting the claim that
the error message includes the captured diagnostic output. -/
theorem texToImage_compile_error_message_counterexample :
    (texToImage cexPdfl okMagick (str "t.tex") (str "o.png") 300 90 cexFS).ret
      = .error (.runtimeError (compileErrMsg (dirname (str "t.tex")) (str "t.tex") 1))
    ∧ containsSub (str "diagnosticXYZ")
        (compileErrMsg (dirname (str "t.tex")) (str "t.tex") 1) = false
    ∧ (texToImage cexPdfl okMagick (str "t.tex") (str "o.png") 300 90 cexFS).printed
      = [structExistsMsg (str "t.tex"), str "diagnosticXYZ"] := by
  refine ⟨by decide, by decide, by decide⟩

/-- C7.  When the compiler reports success but the expected intermediate
PDF does not exist, `tex_to_image` raises the `FileNotFoundError` "PDF
file ... was not created." and the rasterizer is never invoked (the
result does not depend on the rasterizer at all); symmetrically, when the
rasterizer reports success but the output image does not exist, it raises
the `FileNotFoundError` "Image file ... was not created.".  Both are
`FileNotFoundError`s, a different kind from the `RuntimeError` used for
external-tool failures (last conjunct). -/
theorem texToImage_missing_artifact_errors (pdfl magick : Tool)
    (texFile outputImage : Str) (density quality : Nat)
    (fs0 fs2 : FS) (msgs : List Str) (r1 : ToolResult)
    (hp : preprocess texFile fs0 = .ok (fs2, msgs))
    (hr1 : pdfl (pdflatexArgs (dirname texFile) texFile) fs2 = r1)
    (hc1 : r1.code = 0) :
    (pathExists r1.fs (pdfTargetPath texFile) = false →
      (texToImage pdfl magick texFile outputImage density quality fs0).ret
        = .error (.fileNotFound (pdfNotCreatedMsg (pdfTargetPath texFile)))
      ∧ ∀ magick' : Tool,
          texToImage pdfl magick' texFile outputImage density quality fs0
            = texToImage pdfl magick texFile outputImage density quality fs0)
    ∧ (∀ r2 : ToolResult, pathExists r1.fs (pdfTargetPath texFile) = true →
        magick (magickArgs density (pdfTargetPath texFile) quality outputImage) r1.fs = r2 →
        r2.code = 0 → pathExists r2.fs outputImage = false →
        (texToImage pdfl magick texFile outputImage density quality fs0).ret
          = .error (.fileNotFound (imgNotCreatedMsg outputImage)))
    ∧ (∀ m m' : Str, TexError.fileNotFound m ≠ TexError.runtimeError m') := by
  refine ⟨?_, ?_, ?_⟩
  · intro hpdf
    have hmain : ∀ mk : Tool, texToImage pdfl mk texFile outputImage density quality fs0
        = ⟨.error (.fileNotFound (pdfNotCreatedMsg (pdfTargetPath texFile))),
           r1.fs, msgs ++ [r1.out]⟩ := by
      intro mk
      rw [texToImage_preprocess pdfl mk texFile outputImage density quality fs0 fs2 msgs hp]
      exact texToImageCore_pdf_missing pdfl mk texFile outputImage density quality
        fs2 msgs r1 hr1 hc1 hpdf
    exact ⟨by rw [hmain magick], fun magick' => by rw [hmain magick', hmain magick]⟩
  · intro r2 hpdf hr2 hc2 himg
    rw [texToImage_preprocess pdfl magick texFile outputImage density quality fs0 fs2 msgs hp,
      texToImageCore_img_missing pdfl magick texFile outputImage density quality
        fs2 msgs r1 r2 hr1 hc1 hpdf hr2 hc2 himg]
  · intro m m' hcontra
    cases hcontra

theorem texToImage_missing_artifact_errors_witness :
    ((texToImage noopOkTool okMagick (str "t.tex") (str "o.png") 300 90 cexFS).ret
        = .error (.fileNotFound (pdfNotCreatedMsg (pdfTargetPath (str "t.tex"))))
      ∧ ∀ magick' : Tool,
          texToImage noopOkTool magick' (str "t.tex") (str "o.png") 300 90 cexFS
            = texToImage noopOkTool okMagick (str "t.tex") (str "o.png") 300 90 cexFS)
    ∧ ((texToImage okPdfl noopOkTool (str "t.tex") (str "o.png") 300 90 cexFS).ret
        = .error (.fileNotFound (imgNotCreatedMsg (str "o.png"))))
    ∧ (∀ m m' : Str, TexError.fileNotFound m ≠ TexError.runtimeError m') :=
  ⟨(texToImage_missing_artifact_errors noopOkTool okMagick (str "t.tex") (str "o.png")
      300 90 cexFS cexFS [structExistsMsg (str "t.tex")] ⟨0, [], [], cexFS⟩
      (by decide) (by decide) (by decide)).1 (by decide),
   (texToImage_missing_artifact_errors okPdfl noopOkTool (str "t.tex") (str "o.png")
      300 90 cexFS cexFS [structExistsMsg (str "t.tex")]
      ⟨0, str "ok", [], ⟨[(str "t.pdf", str "PDF"), (str "t.tex", beginMarker)], []⟩⟩
      (by decide) (by decide) (by decide)).2.1
      ⟨0, [], [], ⟨[(str "t.pdf", str "PDF"), (str "t.tex", beginMarker)], []⟩⟩
      (by decide) (by decide) (by decide) (by decide),
   (texToImage_missing_artifact_errors okPdfl noopOkTool (str "t.tex") (str "o.png")
      300 90 cexFS cexFS [structExistsMsg (str "t.tex")]
      ⟨0, str "ok", [], ⟨[(str "t.pdf", str "PDF"), (str "t.tex", beginMarker)], []⟩⟩
      (by decide) (by decide) (by decide)).2.2⟩

theorem convGo_printed_mono (pdfl magick : Tool) (inF outF : Str) (d q : Nat) :
    ∀ (l : List Str) (fs : FS) (printed : List Str),
    ∃ extra, (convGo pdfl magick inF outF d q l fs printed).2 = printed ++ extra := by
  intro l
  induction l with
  | nil =>
    intro fs printed
    exact ⟨[], by simp [convGo]⟩
  | cons name rest ih =>
    intro fs printed
    cases hmn : endsWithList (str ".tex") name with
    | true =>
      simp only [convGo, hmn, if_true]
      cases hret : (texToImage pdfl magick (joinPath inF name)
          (outputImagePath outF name) d q fs).ret with
      | ok img =>
        simp only [hret]
        rcases ih (texToImage pdfl magick (joinPath inF name)
            (outputImagePath outF name) d q fs).fs
          (printed ++ (texToImage pdfl magick (joinPath inF name)
            (outputImagePath outF name) d q fs).printed
            ++ [convertedMsg (joinPath inF name) img]) with ⟨e1, he1⟩
        refine ⟨(texToImage pdfl magick (joinPath inF name)
            (outputImagePath outF name) d q fs).printed
            ++ [convertedMsg (joinPath inF name) img] ++ e1, ?_⟩
        rw [he1]
        simp [List.append_assoc]
      | error e =>
        simp only [hret]
        rcases ih (texToImage pdfl magick (joinPath inF name)
            (outputImagePath outF name) d q fs).fs
          (printed ++ (texToImage pdfl magick (joinPath inF name)
            (outputImagePath outF name) d q fs).printed
            ++ [errorProcessingMsg name e]) with ⟨e1, he1⟩
        refine ⟨(texToImage pdfl magick (joinPath inF name)
            (outputImagePath outF name) d q fs).printed
            ++ [errorProcessingMsg name e] ++ e1, ?_⟩
        rw [he1]
        simp [List.append_assoc]
    | false =>
      simp only [convGo, hmn, Bool.false_eq_true, if_false]
      exact ih fs printed

theorem convGo_logs (pdfl magick : Tool) (inF outF : Str) (d q : Nat) (name : Str)
    (hm : endsWithList (str ".tex") name = true) :
    ∀ (l : List Str) (fs : FS) (printed : List Str), name ∈ l →
    ∃ line, line ∈ (convGo pdfl magick inF outF d q l fs printed).2 ∧
      ((∃ img, line = convertedMsg (joinPath inF name) img) ∨
       (∃ e, line = errorProcessingMsg name e)) := by
  intro l
  induction l with
  | nil =>
    intro fs printed hmem
    simp at hmem
  | cons n rest ih =>
    intro fs printed hmem
    rcases List.mem_cons.mp hmem with rfl | hmem'
    · simp only [convGo, hm, if_true]
      cases hret : (texToImage pdfl magick (joinPath inF name)
          (outputImagePath outF name) d q fs).ret with
      | ok img =>
        simp only [hret]
        rcases convGo_printed_mono pdfl magick inF outF d q rest
          (texToImage pdfl magick (joinPath inF name)
            (outputImagePath outF name) d q fs).fs
          (printed ++ (texToImage pdfl magick (joinPath inF name)
            (outputImagePath outF name) d q fs).printed
            ++ [convertedMsg (joinPath inF name) img]) with ⟨e1, he1⟩
        refine ⟨convertedMsg (joinPath inF name) img, ?_, Or.inl ⟨img, rfl⟩⟩
        rw [he1]
        simp
      | error e =>
        simp only [hret]
        rcases convGo_printed_mono pdfl magick inF outF d q rest
          (texToImage pdfl magick (joinPath inF name)
            (outputImagePath outF name) d q fs).fs
          (printed ++ (texToImage pdfl magick (joinPath inF name)
            (outputImagePath outF name) d q fs).printed
            ++ [errorProcessingMsg name e]) with ⟨e1, he1⟩
        refine ⟨errorProcessingMsg name e, ?_, Or.inr ⟨e, rfl⟩⟩
        rw [he1]
        simp
    · cases hmn : endsWithList (str ".tex") n with
      | true =>
        simp only [convGo, hmn, if_true]
        cases hret : (texToImage pdfl magick (joinPath inF n)
            (outputImagePath outF n) d q fs).ret with
        | ok img =>
          simp only [hret]
          exact ih _ _ hmem'
        | error e =>
          simp only [hret]
          exact ih _ _ hmem'
      | false =>
        simp only [convGo, hmn, Bool.false_eq_true, if_false]
        exact ih fs printed hmem'

/-- Filesystem for the one-valid-one-invalid batch scenario. -/
def c8FS : FS := ⟨[(str "in/good.tex", beginMarker), (str "in/bad.tex", beginMarker)], []⟩

/-- The batch run over `good.tex` (converts) and `bad.tex` (compiler
fails). -/
def c8Run : FS × List Str :=
  convertAllTexToImages demoPdfl okMagick (str "in") (str "out") 300 90
    [str "good.tex", str "bad.tex"] c8FS

/-- C8.  Every matching file of the listing gets its own log line — a
`Converted:` line on success or an `Error processing <name>: ...` line
carrying the file's name on a caught error — no matter how any other
file's conversion fares, so one file's failure never stops the others
(the `convGo` loop is total: its result type carries no exception, so
nothing propagates out of the batch call).  In the concrete
one-valid-one-invalid scenario the batch produces exactly one file under
the output folder, exactly one `Error processing` log line, an image for
the valid source and none for the invalid one. -/
theorem convertAll_catches_and_continues (pdfl magick : Tool) (inF outF : Str)
    (d q : Nat) (listing : List Str) (fs : FS) :
    (∀ name, name ∈ listing → endsWithList (str ".tex") name = true →
      ∃ line, line ∈ (convertAllTexToImages pdfl magick inF outF d q listing fs).2 ∧
        ((∃ img, line = convertedMsg (joinPath inF name) img) ∨
         (∃ e, line = errorProcessingMsg name e)))
    ∧ ((c8Run.1.files.filter (fun e => startsWithList (str "out/") e.1)).length = 1
      ∧ (c8Run.2.filter (fun line => startsWithList (str "Error processing ") line)).length = 1
      ∧ pathExists c8Run.1 (str "out/good.png") = true
      ∧ pathExists c8Run.1 (str "out/bad.png") = false) := by
  constructor
  · intro name hmem hm
    exact convGo_logs pdfl magick inF outF d q name hm listing (ensureDir fs outF) [] hmem
  · refine ⟨by decide, by decide, by decide, by decide⟩

theorem convertAll_catches_and_continues_witness :
    (∃ line, line ∈ (convertAllTexToImages demoPdfl okMagick (str "in") (str "out") 300 90
        [str "good.tex", str "bad.tex"] c8FS).2 ∧
      ((∃ img, line = convertedMsg (joinPath (str "in") (str "good.tex")) img) ∨
       (∃ e, line = errorProcessingMsg (str "good.tex") e)))
    ∧ ((c8Run.1.files.filter (fun e => startsWithList (str "out/") e.1)).length = 1
      ∧ (c8Run.2.filter (fun line => startsWithList (str "Error processing ") line)).length = 1
      ∧ pathExists c8Run.1 (str "out/good.png") = true
      ∧ pathExists c8Run.1 (str "out/bad.png") = false) :=
  ⟨(convertAll_catches_and_continues demoPdfl okMagick (str "in") (str "out") 300 90
      [str "good.tex", str "bad.tex"] c8FS).1 (str "good.tex") (by decide) (by decide),
   (convertAll_catches_and_continues demoPdfl okMagick (str "in") (str "out") 300 90
      [str "good.tex", str "bad.tex"] c8FS).2⟩

/-- One batch item as the spec describes it: convert the joined input path
into the derived output path, then append the success or error log line. -/
def convStep (pdfl magick : Tool) (inF outF : Str) (d q : Nat)
    (acc : FS × List Str) (name : Str) : FS × List Str :=
  let r := texToImage pdfl magick (joinPath inF name) (outputImagePath outF name)
    d q acc.1
  match r.ret with
  | .ok img => (r.fs, acc.2 ++ r.printed ++ [convertedMsg (joinPath inF name) img])
  | .error e => (r.fs, acc.2 ++ r.printed ++ [errorProcessingMsg name e])

/-- Specification-shaped batch converter, following the spec's words: the
output directory is created if absent, then exactly the listed names
ending in `.tex` are processed in order, each output path being the
output folder joined with the name with every occurrence of `".tex"`
replaced by `".png"` (that is `outputImagePath`). -/
def convertAllSpec (pdfl magick : Tool) (inF outF : Str) (d q : Nat)
    (listing : List Str) (fs : FS) : FS × List Str :=
  (listing.filter (fun n => endsWithList (str ".tex") n)).foldl
    (convStep pdfl magick inF outF d q) (ensureDir fs outF, [])

theorem convGo_eq_foldl (pdfl magick : Tool) (inF outF : Str) (d q : Nat) :
    ∀ (l : List Str) (fs : FS) (printed : List Str),
    convGo pdfl magick inF outF d q l fs printed
      = (l.filter (fun n => endsWithList (str ".tex") n)).foldl
          (convStep pdfl magick inF outF d q) (fs, printed) := by
  intro l
  induction l with
  | nil =>
    intro fs printed
    simp [convGo]
  | cons n rest ih =>
    intro fs printed
    cases hmn : endsWithList (str ".tex") n with
    | true =>
      rw [List.filter_cons_of_pos (by simp [hmn])]
      rw [List.foldl_cons]
      have hstep : convStep pdfl magick inF outF d q (fs, printed) n
          = (let r := texToImage pdfl magick (joinPath inF n)
              (outputImagePath outF n) d q fs
             match r.ret with
             | .ok img => (r.fs, printed ++ r.printed ++ [convertedMsg (joinPath inF n) img])
             | .error e => (r.fs, printed ++ r.printed ++ [errorProcessingMsg n e])) := rfl
      simp only [convGo, hmn, if_true]
      cases hret : (texToImage pdfl magick (joinPath inF n)
          (outputImagePath outF n) d q fs).ret with
      | ok img =>
        simp only [hret]
        rw [ih]
        rw [hstep]
        simp only [hret]
      | error e =>
        simp only [hret]
        rw [ih]
        rw [hstep]
        simp only [hret]
    | false =>
      rw [List.filter_cons_of_neg (by simp [hmn])]
      simp only [convGo, hmn, Bool.false_eq_true, if_false]
      exact ih fs printed

/-- C9, counterexample.  For the listed name `a.tex.tex` (which ends in
`.tex`), `file_name.replace('.tex', '.png')` substitutes every occurrence
of `".tex"`, not only the final extension: the image is created at
`out/a.png.png`, while extension substitution alone would give
`out/a.tex.png`, where nothing is created. -/
theorem convertAll_output_name_counterexample :
    replaceAll (str ".tex") (str ".png") (str "a.tex.tex") = str "a.png.png"
    ∧ str "a.png.png" ≠ str "a.tex.png"
    ∧ pathExists (convertAllTexToImages okPdfl okMagick (str "in") (str "out") 300 90
        [str "a.tex.tex"] ⟨[(str "in/a.tex.tex", beginMarker)], []⟩).1
        (str "out/a.png.png") = true
    ∧ pathExists (convertAllTexToImages okPdfl okMagick (str "in") (str "out") 300 90
        [str "a.tex.tex"] ⟨[(str "in/a.tex.tex", beginMarker)], []⟩).1
        (str "out/a.tex.png") = false := by
  refine ⟨by decide, by decide, by decide, by decide⟩

/-- C9, amended.  `convert_all_tex_to_images` first creates the output
directory if it does not exist, then processes exactly the listed files
whose names end in `".tex"`, deriving each output image path as the
output directory joined with the file name with every occurrence of the
substring `".tex"` replaced by `".png"` — plain extension substitution
only when `".tex"` occurs nowhere else in the name.  This is stated as a
refinement: the source loop equals the specification-shaped
filter-and-fold `convertAllSpec` on all inputs. -/
theorem convertAll_refines_filtered_fold (pdfl magick : Tool) (inF outF : Str)
    (d q : Nat) (listing : List Str) (fs : FS) :
    convertAllTexToImages pdfl magick inF outF d q listing fs
      = convertAllSpec pdfl magick inF outF d q listing fs
    ∧ (pathExists fs outF = false → existsDir (ensureDir fs outF) outF = true) := by
  constructor
  · unfold convertAllTexToImages convertAllSpec
    exact convGo_eq_foldl pdfl magick inF outF d q listing (ensureDir fs outF) []
  · intro h
    unfold ensureDir
    rw [h]
    simp [makedirs, existsDir]

theorem convertAll_refines_filtered_fold_witness :
    convertAllTexToImages demoPdfl okMagick (str "in") (str "out") 300 90
        [str "good.tex", str "bad.tex"] c8FS
      = convertAllSpec demoPdfl okMagick (str "in") (str "out") 300 90
        [str "good.tex", str "bad.tex"] c8FS
    ∧ existsDir (ensureDir c8FS (str "out")) (str "out") = true :=
  ⟨(convertAll_refines_filtered_fold demoPdfl okMagick (str "in") (str "out") 300 90
      [str "good.tex", str "bad.tex"] c8FS).1,
   (convertAll_refines_filtered_fold demoPdfl okMagick (str "in") (str "out") 300 90
      [str "good.tex", str "bad.tex"] c8FS).2 (by decide)⟩
